import Mathlib

/-!
Verification development for the ReDoS discovery/classification/benchmark
pipeline.  The JavaScript sources are shallowly embedded: every pure
computation becomes a Lean function over explicit data, and every interaction
with the host regex engine (`new RegExp`, `regex.test`, `isSafe`) is
parameterised by an oracle describing the engine's observable behaviour
(result, elapsed wall-clock time, or thrown exception message).
-/

set_option maxRecDepth 8000

namespace ReDoS

/-! ## Benchmark harness (src/performance-benchmark.js)

`benchmarkPattern(pattern, flags, testInputs, description)` compiles the
pattern once (`new RegExp(pattern, flags)`, line 16, outside any try/catch)
and then iterates over `testInputs`.  Each iteration schedules a 5000 ms
`setTimeout` that would set `timedOut = true`, synchronously calls
`regex.test(input)` inside a try/catch, clears the timer, and records one
result object.  The engine behaviour for one call is modelled by
`EngineCall`: either the call returns a boolean after a measured number of
milliseconds, or it throws with a message. -/

/-- Observable behaviour of one `regex.test(input)` call: it either returns
`matched` after `elapsedMs` wall-clock milliseconds, or throws `msg`. -/
inductive EngineCall where
  | ok (elapsedMs : ℚ) (matched : Bool)
  | err (msg : String)
deriving DecidableEq

/-- The `result` field of a recorded sample: the boolean returned by
`regex.test`, the string `'timeout'`, or the string `'error'`. -/
inductive SampleResult where
  | bool (b : Bool)
  | timeout
  | error
deriving DecidableEq

/-- One element of the `results` array pushed by `benchmarkPattern`
(lines 36-58).  The error record of the catch branch (lines 53-58) carries no
`timeout` field; reading the absent field yields a falsy value, modelled as
`timeout := false`. -/
structure Sample where
  inputLength : Nat
  duration : ℚ
  result : SampleResult
  timeout : Bool
  errMsg : Option String
deriving DecidableEq

/-- The body of the `testInputs.forEach` loop (lines 19-60) for one input.

The `timedOut` flag (line 21) is written only by the callback passed to
`setTimeout` (lines 23-25).  Node runs JavaScript on a single thread:
a timer callback can only execute once the current synchronous call stack
has unwound back to the event loop.  `regex.test(input)` is a synchronous
call, and `clearTimeout(timeout)` (line 29 resp. 52) cancels the timer in
the same synchronous block, before control ever returns to the event loop.
Hence when line 31 reads `timedOut`, the flag still holds its initial value
`false`, however long the engine call took. -/
def runSample (input : List Char) (call : EngineCall) : Sample :=
  match call with
  | .ok elapsed matched =>
      let timedOut := false
      if !timedOut then
        { inputLength := input.length, duration := elapsed,
          result := .bool matched, timeout := false, errMsg := none }
      else
        { inputLength := input.length, duration := 5000,
          result := .timeout, timeout := true, errMsg := none }
  | .err m =>
      { inputLength := input.length, duration := 0,
        result := .error, timeout := false, errMsg := some m }

/-- The full `testInputs.forEach` loop of `benchmarkPattern`: one recorded
sample per input, in input order. -/
def benchmarkSamples (calls : List (List Char × EngineCall)) : List Sample :=
  calls.map fun ic => runSample ic.1 ic.2

/-- `benchmarkPattern` including the `new RegExp(pattern, flags)` call of
line 16.  The compilation happens before the per-sample try/catch, so a
compile exception propagates to the caller instead of being recorded. -/
def benchmarkPattern (compileResult : Except String Unit)
    (calls : List (List Char × EngineCall)) : Except String (List Sample) :=
  match compileResult with
  | .error e => .error e
  | .ok _ => .ok (benchmarkSamples calls)

/-- Severity tiers printed by `main` (lines 164-167). -/
inductive Severity where
  | low
  | medium
  | high
  | critical
deriving DecidableEq

/-- `Math.max(...l)`: `none` models the `-Infinity` returned for an empty
argument list, which exceeds no positive threshold. -/
def mathMax : List ℚ → Option ℚ
  | [] => none
  | x :: xs =>
      match mathMax xs with
      | none => some x
      | some m => some (max x m)

/-- Severity derivation of `main` (lines 160-168): `maxTime` is
`Math.max(...benchmark.results.filter(r => !r.timeout).map(r => r.duration))`
and the status ladder checks `hasTimeout`, then `maxTime > 1000`, then
`maxTime > 100`. -/
def deriveStatus (results : List Sample) : Severity :=
  let maxTime := mathMax ((results.filter fun r => !r.timeout).map (·.duration))
  let hasTimeout := results.any (·.timeout)
  if hasTimeout then .critical
  else
    match maxTime with
    | some m => if m > 1000 then .high else if m > 100 then .medium else .low
    | none => .low

/-- The severity derivation as the spec words it: keyed to the elapsed time
of the sample for the *largest input* (argmax over `inputLength`), not to the
maximum over all samples.  Stated for comparison with `deriveStatus`. -/
def severityLargestInput (results : List Sample) : Severity :=
  if results.any (·.timeout) then .critical
  else
    match results.argmax (·.inputLength) with
    | some r => if r.duration > 1000 then .high else if r.duration > 100 then .medium else .low
    | none => .low

/-- Equivalent existential reading of the status ladder: some non-timed-out
sample exceeds the threshold.  Used to state the amended C2. -/
def severityAnySample (results : List Sample) : Severity :=
  if results.any (·.timeout) then .critical
  else if results.any (fun r => !r.timeout && decide (r.duration > 1000)) then .high
  else if results.any (fun r => !r.timeout && decide (r.duration > 100)) then .medium
  else .low

theorem mathMax_gt_iff (l : List ℚ) (t : ℚ) :
    (∃ m, mathMax l = some m ∧ t < m) ↔ ∃ x ∈ l, t < x := by
  induction l with
  | nil => simp [mathMax]
  | cons x xs ih =>
      cases h : mathMax xs with
      | none =>
          simp only [mathMax, h] at ih ⊢
          simp only [List.mem_cons]
          constructor
          · rintro ⟨m, hm, ht⟩
            cases hm
            exact ⟨x, Or.inl rfl, ht⟩
          · rintro ⟨y, hy | hy, ht⟩
            · exact ⟨x, rfl, hy ▸ ht⟩
            · rcases ih.mpr ⟨y, hy, ht⟩ with ⟨m, hm, -⟩
              cases hm
      | some m =>
          simp only [mathMax, h] at ih ⊢
          simp only [List.mem_cons]
          constructor
          · rintro ⟨m', hm', ht⟩
            cases hm'
            rcases lt_max_iff.mp ht with hx | hm
            · exact ⟨x, Or.inl rfl, hx⟩
            · rcases ih.mp ⟨m, rfl, hm⟩ with ⟨y, hy, hty⟩
              exact ⟨y, Or.inr hy, hty⟩
          · rintro ⟨y, hy | hy, ht⟩
            · exact ⟨max x m, rfl, lt_max_iff.mpr (Or.inl (hy ▸ ht))⟩
            · rcases ih.mpr ⟨y, hy, ht⟩ with ⟨m', hm', htm⟩
              cases hm'
              exact ⟨max x m, rfl, lt_max_iff.mpr (Or.inr htm)⟩

/-- Adversarial input `'a'.repeat(35) + 'x'` for the classic vulnerable
pattern `^(a+)+$`: the engine call blocks far longer than the 5000 ms
deadline before returning `false`. -/
def c1input : List Char := List.replicate 35 'a' ++ ['x']

/-- C1: the spec demands that a sample whose engine call exceeds the 5 s
deadline is recorded as `timedOut` and the run abandoned.  In the code the
timeout branch of `benchmarkPattern` is dead: the `timedOut` flag can never
be `true` when it is read, so *every* recorded sample has `timeout = false`,
and an engine call of 6000 ms is recorded as an ordinary sample with its
measured duration instead of the `'timeout'` record. -/
theorem benchmark_timeout_branch_unreachable :
    (∀ calls, ((benchmarkSamples calls).all fun s => !s.timeout) = true) ∧
    benchmarkSamples [(c1input, .ok 6000 false)] =
      [{ inputLength := 36, duration := 6000, result := .bool false,
         timeout := false, errMsg := none }] := by
  constructor
  · intro calls
    rw [List.all_eq_true]
    intro s hs
    rcases List.mem_map.mp hs with ⟨⟨input, call⟩, -, rfl⟩
    cases call <;> simp [runSample]
  · decide

/-- Two samples realisable by `benchmarkSamples`: the smaller input (21
chars) takes 2000 ms, the largest input (101 chars) takes 50 ms. -/
def c2samples : List Sample :=
  benchmarkSamples
    [(List.replicate 21 'a', .ok 2000 false), (List.replicate 101 'a', .ok 50 false)]

/-- C2 as stated is false: the code derives HIGH from the 2000 ms sample
even though the elapsed time for the largest input is 50 ms, for which the
spec's wording ("elapsed time for the largest input") yields LOW. -/
theorem deriveStatus_not_largest_input :
    deriveStatus c2samples = .high ∧ severityLargestInput c2samples = .low := by
  constructor
  · rfl
  · rfl

/-- C2 amended: severity is CRITICAL if any sample timed out; otherwise HIGH
if some non-timed-out sample's duration exceeds 1000 ms (equivalently, the
maximum over all non-timed-out samples does); otherwise MEDIUM if some such
sample exceeds 100 ms; otherwise LOW.  The threshold is applied to the
maximum over all samples, not to the largest input's sample. -/
theorem deriveStatus_eq_severityAnySample :
    ∀ results, deriveStatus results = severityAnySample results := by
  intro results
  unfold deriveStatus severityAnySample
  cases hto : results.any (·.timeout)
  · simp only [hto, Bool.false_eq_true, if_false]
    have key : ∀ t : ℚ,
        (∃ m, mathMax ((results.filter fun r => !r.timeout).map (·.duration)) = some m ∧ t < m)
        ↔ (results.any fun r => !r.timeout && decide (r.duration > t)) = true := by
      intro t
      rw [mathMax_gt_iff]
      simp only [List.any_eq_true, List.mem_map, List.mem_filter, Bool.and_eq_true,
        decide_eq_true_eq]
      constructor
      · rintro ⟨x, ⟨r, ⟨hr, hnt⟩, rfl⟩, ht⟩
        exact ⟨r, hr, hnt, ht⟩
      · rintro ⟨r, hr, hnt, ht⟩
        exact ⟨r.duration, ⟨r, ⟨hr, hnt⟩, rfl⟩, ht⟩
    cases hmx : mathMax ((results.filter fun r => !r.timeout).map (·.duration)) with
    | none =>
        have h1000 : (results.any fun r => !r.timeout && decide (r.duration > 1000)) = false := by
          rcases h : results.any fun r => !r.timeout && decide (r.duration > 1000)
          · rfl
          · rcases (key 1000).mpr h with ⟨m, hm, -⟩
            rw [hmx] at hm; cases hm
        have h100 : (results.any fun r => !r.timeout && decide (r.duration > 100)) = false := by
          rcases h : results.any fun r => !r.timeout && decide (r.duration > 100)
          · rfl
          · rcases (key 100).mpr h with ⟨m, hm, -⟩
            rw [hmx] at hm; cases hm
        simp [h1000, h100]
    | some m =>
        by_cases h1 : (1000 : ℚ) < m
        · have : (results.any fun r => !r.timeout && decide (r.duration > 1000)) = true :=
            (key 1000).mp ⟨m, hmx, h1⟩
          simp [h1, this]
        · have e1 : (results.any fun r => !r.timeout && decide (r.duration > 1000)) = false := by
            rcases h : results.any fun r => !r.timeout && decide (r.duration > 1000)
            · rfl
            · rcases (key 1000).mpr h with ⟨m', hm', hlt⟩
              rw [hmx] at hm'
              cases hm'
              exact absurd hlt h1
          by_cases h2 : (100 : ℚ) < m
          · have : (results.any fun r => !r.timeout && decide (r.duration > 100)) = true :=
              (key 100).mp ⟨m, hmx, h2⟩
            simp [h1, h2, e1, this]
          · have e2 : (results.any fun r => !r.timeout && decide (r.duration > 100)) = false := by
              rcases h : results.any fun r => !r.timeout && decide (r.duration > 100)
              · rfl
              · rcases (key 100).mpr h with ⟨m', hm', hlt⟩
                rw [hmx] at hm'
                cases hm'
                exact absurd hlt h2
            simp [h1, h2, e1, e2]
  · simp [hto]

/-! ## Adversarial input generation (src/performance-benchmark.js 65-118) -/

/-- Does `needle` occur as a contiguous block at the head of `hay`? -/
def seqAtHead : List Char → List Char → Bool
  | [], _ => true
  | _ :: _, [] => false
  | n :: ns, h :: hs => n == h && seqAtHead ns hs

/-- JS `String.prototype.includes`: contiguous substring test. -/
def jsIncludes (hay needle : List Char) : Bool :=
  match hay with
  | [] => seqAtHead needle []
  | c :: t => seqAtHead needle (c :: t) || jsIncludes t needle

/-- Credit-card family test (line 69): `pattern.includes('5[1-5]') ||
pattern.includes('222')`. -/
def catCredit (p : List Char) : Bool :=
  jsIncludes p "5[1-5]".toList || jsIncludes p "222".toList

/-- FQDN family test (line 76): `pattern.includes('a-z') &&
pattern.includes('{2,}')` (the probe string is brace, 2, comma, brace). -/
def catFqdn (p : List Char) : Bool :=
  jsIncludes p "a-z".toList && jsIncludes p "\x7b2,\x7d".toList

/-- HSL family test (line 83): `pattern.includes('hsla?')`. -/
def catHsl (p : List Char) : Bool :=
  jsIncludes p "hsla?".toList

/-- Date family test (line 90): `pattern.includes('Mon|Tue|Wed')`. -/
def catDate (p : List Char) : Bool :=
  jsIncludes p "Mon|Tue|Wed".toList

/-- Format family test (line 97): `pattern.includes('\\[') &&
pattern.includes('MM?M?M?')` (the first probe is backslash, bracket). -/
def catFormat (p : List Char) : Bool :=
  jsIncludes p "\\[".toList && jsIncludes p "MM?M?M?".toList

/-- Whitespace family test (line 104): `pattern.includes('\\s\\s*')`. -/
def catWs (p : List Char) : Bool :=
  jsIncludes p "\\s\\s*".toList

/-- `generateReDoSInputs(pattern)` (lines 65-118): each matching family
appends its three fixed inputs in order; if no family matched, the default
fallback contributes three inputs. -/
def generateReDoSInputs (pattern : List Char) : List (List Char) :=
  let inputs : List (List Char) := []
  let inputs := if catCredit pattern then
      inputs ++ ["5".toList ++ List.replicate 20 '1' ++ "x".toList,
                 "5".toList ++ List.replicate 50 '1' ++ "x".toList,
                 "5".toList ++ List.replicate 100 '1' ++ "x".toList]
    else inputs
  let inputs := if catFqdn pattern then
      inputs ++ [List.replicate 20 'a' ++ "x".toList,
                 List.replicate 50 'a' ++ "x".toList,
                 List.replicate 100 'a' ++ "x".toList]
    else inputs
  let inputs := if catHsl pattern then
      inputs ++ ["hsl(".toList ++ (List.replicate 20 "1.".toList).flatten ++ "x".toList,
                 "hsl(".toList ++ (List.replicate 50 "1.".toList).flatten ++ "x".toList,
                 "hsl(".toList ++ (List.replicate 100 "1.".toList).flatten ++ "x".toList]
    else inputs
  let inputs := if catDate pattern then
      inputs ++ ["Mon, ".toList ++ List.replicate 20 '1' ++ " Jan".toList,
                 "Mon, ".toList ++ List.replicate 50 '1' ++ " Jan".toList,
                 "Mon, ".toList ++ List.replicate 100 '1' ++ " Jan".toList]
    else inputs
  let inputs := if catFormat pattern then
      inputs ++ ["[".toList ++ List.replicate 20 'M' ++ "x".toList,
                 "[".toList ++ List.replicate 50 'M' ++ "x".toList,
                 "[".toList ++ List.replicate 100 'M' ++ "x".toList]
    else inputs
  let inputs := if catWs pattern then
      inputs ++ [List.replicate 20 ' ' ++ "x".toList,
                 List.replicate 50 ' ' ++ "x".toList,
                 List.replicate 100 ' ' ++ "x".toList]
    else inputs
  if inputs.length = 0 then
    [List.replicate 20 'a' ++ "x".toList,
     List.replicate 50 'a' ++ "x".toList,
     List.replicate 100 'a' ++ "x".toList]
  else inputs

/-- The six family tests of `generateReDoSInputs`, in source order. -/
def redosCategories (pattern : List Char) : List Bool :=
  [catCredit pattern, catFqdn pattern, catHsl pattern,
   catDate pattern, catFormat pattern, catWs pattern]

/-- Executable strict-ascending test on a list of lengths. -/
def strictAscending : List Nat → Bool
  | [] => true
  | [_] => true
  | a :: b :: t => decide (a < b) && strictAscending (b :: t)

/-- `strictAscending` agrees with the relational notion `List.Chain' (· < ·)`. -/
theorem strictAscending_iff_chain : ∀ l : List Nat,
    strictAscending l = true ↔ List.Chain' (· < ·) l
  | [] => by simp [strictAscending]
  | [a] => by simp [strictAscending]
  | a :: b :: t => by
      rw [List.chain'_cons, ← strictAscending_iff_chain (b :: t)]
      simp [strictAscending]

/-- A vulnerable-looking pattern matched by both the credit-card family
(`5[1-5]`) and the HSL family (`hsla?`). -/
def c9pattern : List Char := "5[1-5]hsla?".toList

/-- C9 as stated is false: a pattern matching two input families receives
the concatenation of both families' input triples, whose lengths
22,52,102,45,105,205 are not in ascending order, so the recorded sample
sequence (which follows input order) is not ascending either. -/
theorem generateReDoSInputs_not_sorted :
    ((generateReDoSInputs c9pattern).map List.length = [22, 52, 102, 45, 105, 205]) ∧
    strictAscending ((generateReDoSInputs c9pattern).map List.length) = false ∧
    (benchmarkSamples ((generateReDoSInputs c9pattern).map fun i => (i, .ok 1 false))).map
        (·.inputLength) = [22, 52, 102, 45, 105, 205] := by
  refine ⟨by decide, by decide, by decide⟩

/-- C9 amended: the generator always produces at least three inputs with at
least three distinct lengths, and each family's triple is internally
ascending, so when at most one family matches the whole sequence is in
strictly ascending input-length order; when several families match, the
concatenated sequence need not be ascending. -/
theorem generateReDoSInputs_shape (pattern : List Char) :
    3 ≤ (generateReDoSInputs pattern).length ∧
    3 ≤ ((generateReDoSInputs pattern).map List.length).dedup.length ∧
    ((redosCategories pattern).count true ≤ 1 →
      strictAscending ((generateReDoSInputs pattern).map List.length) = true) := by
  cases h1 : catCredit pattern <;> cases h2 : catFqdn pattern <;>
    cases h3 : catHsl pattern <;> cases h4 : catDate pattern <;>
    cases h5 : catFormat pattern <;> cases h6 : catWs pattern <;>
    simp only [generateReDoSInputs, redosCategories, h1, h2, h3, h4, h5, h6] <;> decide

/-- Witness for `generateReDoSInputs_shape` at a pattern matching no family
(the fallback triple), discharging the single-category hypothesis. -/
theorem generateReDoSInputs_shape_witness :
    (redosCategories "abcdef".toList).count true ≤ 1 ∧
    strictAscending ((generateReDoSInputs "abcdef".toList).map List.length) = true :=
  ⟨by decide, (generateReDoSInputs_shape "abcdef".toList).2.2 (by decide)⟩

/-! ## Benchmark main loop (src/performance-benchmark.js 120-153) -/

/-- One pattern's benchmark task: the outcome of `new RegExp(vuln.pattern,
vuln.flags)` and the engine behaviour on each generated input. -/
structure PatternRun where
  compileResult : Except String Unit
  calls : List (List Char × EngineCall)

/-- The `vulnerablePatterns.slice(0, 3).forEach` body of `main` (lines
135-151): `benchmarkPattern` is called with no surrounding try/catch, so an
exception thrown by the `new RegExp` of line 16 aborts the entire loop. -/
def benchmarkMain : List PatternRun → Except String (List (List Sample))
  | [] => .ok []
  | p :: ps =>
      match benchmarkPattern p.compileResult p.calls with
      | .error e => .error e
      | .ok rs =>
          match benchmarkMain ps with
          | .error e => .error e
          | .ok rest => .ok (rs :: rest)

/-- A pattern whose compilation throws, followed by a healthy pattern. -/
def badRun : PatternRun :=
  { compileResult := .error "Invalid regular expression",
    calls := [("aaax".toList, .ok 1 false)] }

/-- A pattern that compiles and tests cleanly. -/
def goodRun : PatternRun :=
  { compileResult := .ok (), calls := [("aaax".toList, .ok 1 false)] }

/-- C5 as stated is false for compile errors: when the first pattern fails
to compile, no `engineError` sample is recorded for it and the remaining
patterns are never benchmarked — the whole run aborts with the exception. -/
theorem compile_error_aborts_benchmark :
    benchmarkMain [badRun, goodRun] = .error "Invalid regular expression" := by
  rfl

/-- C5 amended: a sample's `regex.test` throwing yields the per-sample error
record and leaves every other sample of the same pattern intact (first
conjunct), but a pattern whose `new RegExp` throws aborts the whole
benchmark main loop, because compilation happens outside the per-sample
try/catch (second conjunct). -/
theorem benchmark_engine_error_containment :
    (∀ (pre : List (List Char × EngineCall)) (input : List Char) (post : List (List Char × EngineCall)) (msg : String),
        benchmarkSamples (pre ++ (input, EngineCall.err msg) :: post) =
          benchmarkSamples pre ++
            { inputLength := input.length, duration := 0, result := .error,
              timeout := false, errMsg := some msg } :: benchmarkSamples post) ∧
    (∀ (e : String) (calls : List (List Char × EngineCall)) (ps : List PatternRun),
        benchmarkMain ({ compileResult := .error e, calls := calls } :: ps) = .error e) := by
  constructor
  · intro pre input post msg
    simp [benchmarkSamples, runSample]
  · intro e calls ps
    rfl

/-! ## Static classification

Embeds `analyzePatterns` (src/quick-analysis.js 37-70) and the analysis
loop of `analyzeProject` (src/tool-evaluation/evaluate-tools.js 320-389).
The external calls `new RegExp(pattern, flags)` and `isSafe(regexObj)` are
modelled by one oracle: either an analysis result or a thrown message. -/

/-- Joint observable behaviour of `new RegExp` + `isSafe` on a pattern and
flag string: an `isSafe` result (safe flag and whether the score is marked
infinite), or an exception message from either call. -/
inductive AnalysisCall where
  | res (safe : Bool) (scoreInfinite : Bool)
  | err (msg : List Char)
deriving DecidableEq

/-- Engine/analyser behaviour, indexed by pattern text and flags. -/
def AnalysisOracle := List Char → List Char → AnalysisCall

/-- A candidate as produced by `quickExtract`: `{ pattern, flags, file }`. -/
structure QCand where
  pattern : List Char
  flags : List Char
  file : String
deriving DecidableEq

/-- Entry of the `vulnerable` list of `analyzePatterns`: the candidate
spread together with `infinite: analysis.score.infinite`. -/
structure QVuln where
  cand : QCand
  scoreInfinite : Bool
deriving DecidableEq

/-- One iteration of the `patterns.forEach` body of `analyzePatterns`
(lines 41-67): skip `u`+`i` flag combinations (line 44, `return`), then
classify via the oracle; a thrown error is only logged (lines 61-66), the
candidate lands in neither list. -/
def qStep (oracle : AnalysisOracle) (acc : List QVuln × List QCand) (p : QCand) :
    List QVuln × List QCand :=
  if p.flags.contains 'u' && p.flags.contains 'i' then acc
  else
    match oracle p.pattern p.flags with
    | .res safe scoreInf =>
        if !safe then (acc.1 ++ [⟨p, scoreInf⟩], acc.2) else (acc.1, acc.2 ++ [p])
    | .err _ => acc

/-- `analyzePatterns(patterns, projectName)`: returns `{ vulnerable, safe }`. -/
def analyzePatterns (oracle : AnalysisOracle) (patterns : List QCand) :
    List QVuln × List QCand :=
  patterns.foldl (qStep oracle) ([], [])

/-- The per-project accumulation of `main` (src/quick-analysis.js 87-107):
results of each target file are appended to the project's `vulnerable` and
`safe` arrays, with no deduplication. -/
def quickMainAgg (oracle : AnalysisOracle) (perFile : List (List QCand)) :
    List QVuln × List QCand :=
  perFile.foldl
    (fun acc ps =>
      let r := analyzePatterns oracle ps
      (acc.1 ++ r.1, acc.2 ++ r.2))
    ([], [])

/-- `type` tag of an extracted candidate: the strings `'literal'` and
`'constructor'`. -/
inductive CandKind where
  | lit
  | ctor
deriving DecidableEq

/-- A candidate as produced by `extractRegexFromFile`
(src/tool-evaluation/evaluate-tools.js 218-224 / 243-249). -/
structure ECand where
  kind : CandKind
  pattern : List Char
  flags : List Char
  full : List Char
  file : String
deriving DecidableEq

/-- Entry of `errorPatterns`: the candidate spread with the error message. -/
structure EError where
  cand : ECand
  errorMsg : List Char
deriving DecidableEq

/-- The three result arrays of `analyzeProject` (lines 316-318). -/
structure Buckets where
  vulnerable : List ECand
  safe : List ECand
  error : List EError
deriving DecidableEq

/-- The `silentErrors` list of lines 369-377. -/
def silentErrors : List (List Char) :=
  ["Internal error".toList, "caseInsensitive".toList, "unicode".toList,
   "expected codepoint".toList, "Invalid regular expression".toList,
   "memory".toList, "heap".toList]

/-- `errorMsg.toLowerCase().includes(silentError.toLowerCase())` over the
`silentErrors` list (lines 379-381).  The messages involved are ASCII, where
`Char.toLower` agrees with JS `toLowerCase`. -/
def shouldSkipSilently (msg : List Char) : Bool :=
  silentErrors.any fun se => jsIncludes (msg.map Char.toLower) (se.map Char.toLower)

/-- One iteration of the `for (const patternInfo of patternsToAnalyze)` body
(lines 327-389): skip `u`+`i` flags (330-332, `continue`); skip patterns
containing U+0000 or U+FFFD or longer than 300 (335-339, `continue`);
otherwise classify via the oracle; a thrown message matching `silentErrors`
is skipped with no record (379-383), any other error is pushed to
`errorPatterns`. -/
def classifyStep (oracle : AnalysisOracle) (b : Buckets) (c : ECand) : Buckets :=
  if c.flags.contains 'u' && c.flags.contains 'i' then b
  else if c.pattern.contains '\x00' || c.pattern.contains '�'
      || decide (c.pattern.length > 300) then b
  else
    match oracle c.pattern c.flags with
    | .res safe _ =>
        if safe then { b with safe := b.safe ++ [c] }
        else { b with vulnerable := b.vulnerable ++ [c] }
    | .err m =>
        if shouldSkipSilently m then b
        else { b with error := b.error ++ [⟨c, m⟩] }

/-- The analysis loop of `analyzeProject` (lines 320-389), including the
`maxPatterns = Math.min(100, allPatterns.length)` slice of lines 321-322. -/
def classifyLoop (oracle : AnalysisOracle) (cands : List ECand) : Buckets :=
  (cands.take (min 100 cands.length)).foldl (classifyStep oracle) ⟨[], [], []⟩

/-- The two `continue` conditions of lines 330-339. -/
def eSkip (c : ECand) : Bool :=
  (c.flags.contains 'u' && c.flags.contains 'i')
    || (c.pattern.contains '\x00' || c.pattern.contains '�'
        || decide (c.pattern.length > 300))

/-- Selector for the `vulnerablePatterns` bucket. -/
def selVuln (oracle : AnalysisOracle) (c : ECand) : Bool :=
  !eSkip c &&
    match oracle c.pattern c.flags with
    | .res safe _ => !safe
    | .err _ => false

/-- Selector for the `safePatterns` bucket. -/
def selSafe (oracle : AnalysisOracle) (c : ECand) : Bool :=
  !eSkip c &&
    match oracle c.pattern c.flags with
    | .res safe _ => safe
    | .err _ => false

/-- Selector for the `errorPatterns` bucket. -/
def selErr (oracle : AnalysisOracle) (c : ECand) : Option EError :=
  if eSkip c then none
  else
    match oracle c.pattern c.flags with
    | .res _ _ => none
    | .err m => if shouldSkipSilently m then none else some ⟨c, m⟩

/-- A candidate that receives any bucket entry at all. -/
def eCounted (oracle : AnalysisOracle) (c : ECand) : Bool :=
  !eSkip c &&
    match oracle c.pattern c.flags with
    | .res _ _ => true
    | .err m => !shouldSkipSilently m

theorem bool_false_not_true {b : Bool} (h : b = false) : ¬ b = true := by
  rw [h]
  exact Bool.false_ne_true

theorem classify_fold_char (oracle : AnalysisOracle) :
    ∀ (l : List ECand) (b : Buckets),
      l.foldl (classifyStep oracle) b =
        { vulnerable := b.vulnerable ++ l.filter (selVuln oracle),
          safe := b.safe ++ l.filter (selSafe oracle),
          error := b.error ++ l.filterMap (selErr oracle) }
  | [], b => by simp
  | c :: t, b => by
      rw [List.foldl_cons, classify_fold_char oracle t, List.filter_cons, List.filter_cons,
        List.filterMap_cons]
      cases hui : (c.flags.contains 'u' && c.flags.contains 'i') <;>
        cases hbad : (c.pattern.contains '\x00' || c.pattern.contains '�'
          || decide (c.pattern.length > 300))
      case false.false =>
        have hskipf : eSkip c = false := by
          rw [eSkip, hui, hbad]
          rfl
        cases horc : oracle c.pattern c.flags with
        | res safe scoreInf =>
            have hstep : classifyStep oracle b c =
                (if safe then { b with safe := b.safe ++ [c] }
                 else { b with vulnerable := b.vulnerable ++ [c] }) := by
              rw [classifyStep, if_neg (bool_false_not_true hui),
                if_neg (bool_false_not_true hbad), horc]
            have hsv : selVuln oracle c = !safe := by
              rw [selVuln, hskipf, horc]
              simp
            have hss : selSafe oracle c = safe := by
              rw [selSafe, hskipf, horc]
              simp
            have hse : selErr oracle c = none := by
              rw [selErr, if_neg (bool_false_not_true hskipf), horc]
            cases safe <;> simp [hstep, hsv, hss, hse]
        | err m =>
            have hsv : selVuln oracle c = false := by
              rw [selVuln, hskipf, horc]
              simp
            have hss : selSafe oracle c = false := by
              rw [selSafe, hskipf, horc]
              simp
            cases hsil : shouldSkipSilently m
            · have hstep : classifyStep oracle b c = { b with error := b.error ++ [⟨c, m⟩] } := by
                rw [classifyStep, if_neg (bool_false_not_true hui),
                  if_neg (bool_false_not_true hbad), horc]
                show (if shouldSkipSilently m = true then b else _) = _
                rw [if_neg (bool_false_not_true hsil)]
              have hse : selErr oracle c = some ⟨c, m⟩ := by
                rw [selErr, if_neg (bool_false_not_true hskipf), horc]
                show (if shouldSkipSilently m = true then none else _) = _
                rw [if_neg (bool_false_not_true hsil)]
              simp [hstep, hsv, hss, hse]
            · have hstep : classifyStep oracle b c = b := by
                rw [classifyStep, if_neg (bool_false_not_true hui),
                  if_neg (bool_false_not_true hbad), horc]
                show (if shouldSkipSilently m = true then b else _) = _
                rw [if_pos hsil]
              have hse : selErr oracle c = none := by
                rw [selErr, if_neg (bool_false_not_true hskipf), horc]
                show (if shouldSkipSilently m = true then none else _) = _
                rw [if_pos hsil]
              simp [hstep, hsv, hss, hse]
      all_goals
        have hskipt : eSkip c = true := by
          rw [eSkip, hui, hbad]
          rfl
        have hstep : classifyStep oracle b c = b := by
          rw [classifyStep]
          first
          | rw [if_pos hui]
          | rw [if_neg (bool_false_not_true hui), if_pos hbad]
        have hsv : selVuln oracle c = false := by
          rw [selVuln, hskipt]
          rfl
        have hss : selSafe oracle c = false := by
          rw [selSafe, hskipt]
          rfl
        have hse : selErr oracle c = none := by
          rw [selErr, if_pos hskipt]
        simp [hstep, hsv, hss, hse]

/-- Selector for the `vulnerable` list of `analyzePatterns`. -/
def qSelVuln (oracle : AnalysisOracle) (p : QCand) : Bool :=
  !(p.flags.contains 'u' && p.flags.contains 'i') &&
    match oracle p.pattern p.flags with
    | .res safe _ => !safe
    | .err _ => false

/-- Selector for the `safe` list of `analyzePatterns`. -/
def qSelSafe (oracle : AnalysisOracle) (p : QCand) : Bool :=
  !(p.flags.contains 'u' && p.flags.contains 'i') &&
    match oracle p.pattern p.flags with
    | .res safe _ => safe
    | .err _ => false

/-- The `infinite` field recorded for a vulnerable candidate. -/
def qScoreInf (oracle : AnalysisOracle) (p : QCand) : Bool :=
  match oracle p.pattern p.flags with
  | .res _ inf => inf
  | .err _ => false

theorem qfold_char (oracle : AnalysisOracle) :
    ∀ (l : List QCand) (acc : List QVuln × List QCand),
      l.foldl (qStep oracle) acc =
        (acc.1 ++ (l.filter (qSelVuln oracle)).map (fun p => ⟨p, qScoreInf oracle p⟩),
         acc.2 ++ l.filter (qSelSafe oracle))
  | [], acc => by simp
  | c :: t, acc => by
      rw [List.foldl_cons, qfold_char oracle t, List.filter_cons, List.filter_cons]
      cases hui : (c.flags.contains 'u' && c.flags.contains 'i')
      · cases horc : oracle c.pattern c.flags with
        | res safe scoreInf =>
            have hstep : qStep oracle acc c =
                (if !safe then (acc.1 ++ [⟨c, scoreInf⟩], acc.2) else (acc.1, acc.2 ++ [c])) := by
              rw [qStep, if_neg (bool_false_not_true hui), horc]
            have hsv : qSelVuln oracle c = !safe := by
              rw [qSelVuln, hui, horc]
              simp
            have hss : qSelSafe oracle c = safe := by
              rw [qSelSafe, hui, horc]
              simp
            have hinf : qScoreInf oracle c = scoreInf := by
              rw [qScoreInf, horc]
            cases safe <;> simp [hstep, hsv, hss, hinf]
        | err m =>
            have hstep : qStep oracle acc c = acc := by
              rw [qStep, if_neg (bool_false_not_true hui), horc]
            have hsv : qSelVuln oracle c = false := by
              rw [qSelVuln, hui, horc]
              simp
            have hss : qSelSafe oracle c = false := by
              rw [qSelSafe, hui, horc]
              simp
            simp [hstep, hsv, hss]
      · have hstep : qStep oracle acc c = acc := by
          rw [qStep, if_pos hui]
        have hsv : qSelVuln oracle c = false := by
          rw [qSelVuln, hui]
          rfl
        have hss : qSelSafe oracle c = false := by
          rw [qSelSafe, hui]
          rfl
        simp [hstep, hsv, hss]

/-- Total number of bucket entries produced for a list of candidates. -/
def bucketsSize (b : Buckets) : Nat :=
  b.vulnerable.length + b.safe.length + b.error.length

theorem counted_split (oracle : AnalysisOracle) :
    ∀ l : List ECand,
      (l.filter (selVuln oracle)).length + (l.filter (selSafe oracle)).length
          + (l.filterMap (selErr oracle)).length
        = (l.filter (eCounted oracle)).length
  | [] => rfl
  | c :: t => by
      have ih := counted_split oracle t
      rw [List.filter_cons, List.filter_cons, List.filterMap_cons, List.filter_cons]
      cases hsk : eSkip c
      · cases horc : oracle c.pattern c.flags with
        | res safe scoreInf =>
            have hsv : selVuln oracle c = !safe := by
              rw [selVuln, hsk, horc]
              simp
            have hss : selSafe oracle c = safe := by
              rw [selSafe, hsk, horc]
              simp
            have hse : selErr oracle c = none := by
              rw [selErr, if_neg (bool_false_not_true hsk), horc]
            have hco : eCounted oracle c = true := by
              rw [eCounted, hsk, horc]
              rfl
            cases safe <;> simp [hsv, hss, hse, hco] <;> omega
        | err m =>
            have hsv : selVuln oracle c = false := by
              rw [selVuln, hsk, horc]
              rfl
            have hss : selSafe oracle c = false := by
              rw [selSafe, hsk, horc]
              rfl
            cases hsil : shouldSkipSilently m
            · have hse : selErr oracle c = some ⟨c, m⟩ := by
                rw [selErr, if_neg (bool_false_not_true hsk), horc]
                show (if shouldSkipSilently m = true then none else _) = _
                rw [if_neg (bool_false_not_true hsil)]
              have hco : eCounted oracle c = true := by
                rw [eCounted, hsk, horc]
                show (!false && !shouldSkipSilently m) = true
                rw [hsil]
                rfl
              simp [hsv, hss, hse, hco]
              omega
            · have hse : selErr oracle c = none := by
                rw [selErr, if_neg (bool_false_not_true hsk), horc]
                show (if shouldSkipSilently m = true then none else _) = _
                rw [if_pos hsil]
              have hco : eCounted oracle c = false := by
                rw [eCounted, hsk, horc]
                show (!false && !shouldSkipSilently m) = false
                rw [hsil]
                rfl
              simp [hsv, hss, hse, hco]
              omega
      · have hsv : selVuln oracle c = false := by
          rw [selVuln, hsk]
          rfl
        have hss : selSafe oracle c = false := by
          rw [selSafe, hsk]
          rfl
        have hse : selErr oracle c = none := by
          rw [selErr, if_pos hsk]
        have hco : eCounted oracle c = false := by
          rw [eCounted, hsk]
          rfl
        simp [hsv, hss, hse, hco]
        omega

/-- C3 amended: of the first `min(100, n)` candidates, exactly those that
pass the skip filters (no `u`+`i` flag pair, no U+0000/U+FFFD, length at
most 300) and whose analysis either returns a result or throws a non-silent
error receive exactly one bucket entry; every other candidate — including
every candidate beyond the first 100 and every silent-error candidate — is
dropped with no verdict at all. -/
theorem classify_bucket_total (oracle : AnalysisOracle) (cands : List ECand) :
    bucketsSize (classifyLoop oracle cands)
      = ((cands.take (min 100 cands.length)).filter (eCounted oracle)).length := by
  rw [classifyLoop, classify_fold_char, ← counted_split oracle]
  simp [bucketsSize]

/-- A healthy literal candidate for the classification loop. -/
def c3cand : ECand :=
  { kind := .lit, pattern := "^(a+)+$".toList, flags := [],
    full := "/^(a+)+$/".toList, file := "src/lib/validate.js" }

/-- Analyser behaviour throwing redos-detector's internal error. -/
def c3oracle : AnalysisOracle := fun _ _ => .err "Internal error: too many states".toList

/-- Analyser behaviour classifying every pattern as safe. -/
def c3safeOracle : AnalysisOracle := fun _ _ => .res true false

/-- C3 as stated is false: a candidate whose analysis throws a message on
the silent list receives no bucket entry at all, and with 101 candidates
only the first 100 are classified. -/
theorem classify_drops_candidates :
    classifyLoop c3oracle [c3cand] = ⟨[], [], []⟩ ∧
    (classifyLoop c3safeOracle (List.replicate 101 c3cand)).safe.length = 100 := by
  refine ⟨by decide, by decide⟩

/-- Negation of the `u`+`i` flag pair, as the spec's invariant words it. -/
def flagsNotUI (fl : List Char) : Bool :=
  !(fl.contains 'u' && fl.contains 'i')

theorem not_ui_of_not_skip {c : ECand} (h : eSkip c = false) : flagsNotUI c.flags = true := by
  rw [eSkip] at h
  rcases Bool.or_eq_false_iff.mp h with ⟨h1, -⟩
  rw [flagsNotUI, h1]
  rfl

/-- C4 amended: a candidate carrying both the `u` and `i` flags is silently
skipped by both classification loops: it appears in no output list of
`classifyLoop` (evaluate-tools) nor of `analyzePatterns` (quick-analysis);
no UNANALYZABLE verdict — indeed no verdict of any kind — is recorded. -/
theorem ui_flags_silently_skipped (oracle : AnalysisOracle)
    (cands : List ECand) (qs : List QCand) :
    (((classifyLoop oracle cands).vulnerable.all fun c => flagsNotUI c.flags) = true) ∧
    (((classifyLoop oracle cands).safe.all fun c => flagsNotUI c.flags) = true) ∧
    (((classifyLoop oracle cands).error.all fun e => flagsNotUI e.cand.flags) = true) ∧
    (((analyzePatterns oracle qs).1.all fun v => flagsNotUI v.cand.flags) = true) ∧
    (((analyzePatterns oracle qs).2.all fun p => flagsNotUI p.flags) = true) := by
  rw [classifyLoop, classify_fold_char, analyzePatterns, qfold_char]
  refine ⟨?_, ?_, ?_, ?_, ?_⟩ <;> rw [List.all_eq_true] <;> intro x hx <;>
    simp only [List.nil_append] at hx
  · have hsel := (List.mem_filter.mp hx).2
    rw [selVuln, Bool.and_eq_true] at hsel
    exact not_ui_of_not_skip (by simpa using hsel.1)
  · have hsel := (List.mem_filter.mp hx).2
    rw [selSafe, Bool.and_eq_true] at hsel
    exact not_ui_of_not_skip (by simpa using hsel.1)
  · rcases List.mem_filterMap.mp hx with ⟨c, -, hsome⟩
    rw [selErr] at hsome
    by_cases hsk : eSkip c = true
    · rw [if_pos hsk] at hsome
      cases hsome
    · rw [if_neg hsk] at hsome
      have hskf : eSkip c = false := Bool.eq_false_iff.mpr hsk
      rcases horc : oracle c.pattern c.flags with ⟨safe, inf⟩ | m
      · rw [horc] at hsome
        cases hsome
      · rw [horc] at hsome
        have hsome' : (if shouldSkipSilently m = true then (none : Option EError)
            else some ⟨c, m⟩) = some x := hsome
        by_cases hsil : shouldSkipSilently m = true
        · rw [if_pos hsil] at hsome'
          cases hsome'
        · rw [if_neg hsil] at hsome'
          cases hsome'
          exact not_ui_of_not_skip hskf
  · rcases List.mem_map.mp hx with ⟨p, hp, rfl⟩
    have hsel := (List.mem_filter.mp hp).2
    rw [qSelVuln, Bool.and_eq_true] at hsel
    rw [flagsNotUI]
    exact hsel.1
  · have hsel := (List.mem_filter.mp hx).2
    rw [qSelSafe, Bool.and_eq_true] at hsel
    rw [flagsNotUI]
    exact hsel.1

/-- A `u`+`i`-flagged candidate as seen by evaluate-tools. -/
def c4cand : ECand :=
  { kind := .lit, pattern := "^(\\w+)+$".toList, flags := "ui".toList,
    full := "/^(\\w+)+$/ui".toList, file := "src/lib/word.js" }

/-- The same candidate as seen by quick-analysis. -/
def c4qcand : QCand :=
  { pattern := "^(\\w+)+$".toList, flags := "ui".toList, file := "src/lib/word.js" }

/-- Analyser behaviour that would flag the pattern as vulnerable were it
ever consulted. -/
def c4oracle : AnalysisOracle := fun _ _ => .res false true

/-- C4 as stated is false: a candidate with flags `ui` is skipped before any
analysis — it appears in no output list of either loop, rather than being
recorded with an UNANALYZABLE verdict. -/
theorem ui_candidate_no_verdict :
    classifyLoop c4oracle [c4cand] = ⟨[], [], []⟩ ∧
    analyzePatterns c4oracle [c4qcand] = ([], []) := by
  refine ⟨by decide, by decide⟩

theorem quickMainAgg_char (oracle : AnalysisOracle) :
    ∀ (fs : List (List QCand)) (acc : List QVuln × List QCand),
      fs.foldl
          (fun acc ps =>
            let r := analyzePatterns oracle ps
            (acc.1 ++ r.1, acc.2 ++ r.2)) acc
        = (acc.1 ++ (fs.flatten.filter (qSelVuln oracle)).map (fun p => ⟨p, qScoreInf oracle p⟩),
           acc.2 ++ fs.flatten.filter (qSelSafe oracle))
  | [], acc => by simp
  | ps :: t, acc => by
      rw [List.foldl_cons, quickMainAgg_char oracle t]
      simp only [analyzePatterns, qfold_char oracle ps, List.nil_append, List.flatten_cons,
        List.filter_append, List.map_append, List.append_assoc]

/-- C6 amended: no deduplication happens anywhere.  The per-project
aggregation of `main` is plain concatenation of per-file results, and each
input occurrence that is analysed contributes its own entry retaining only
its own origin — two identical candidates from two files yield two
entries, not one merged entry. -/
theorem aggregation_no_dedup (oracle : AnalysisOracle) (perFile : List (List QCand)) :
    quickMainAgg oracle perFile = analyzePatterns oracle perFile.flatten ∧
    (analyzePatterns oracle perFile.flatten).1.map (fun v => v.cand)
        = perFile.flatten.filter (qSelVuln oracle) ∧
    (analyzePatterns oracle perFile.flatten).2 = perFile.flatten.filter (qSelSafe oracle) := by
  refine ⟨?_, ?_, ?_⟩
  · rw [quickMainAgg, quickMainAgg_char, analyzePatterns, qfold_char]
  · rw [analyzePatterns, qfold_char]
    simp only [List.nil_append, List.map_map]
    exact List.map_id _
  · rw [analyzePatterns, qfold_char]
    simp

/-- A vulnerable literal in one file. -/
def c6a : QCand :=
  { pattern := "^(a+)+$".toList, flags := "g".toList, file := "analysis/projects/p/a.js" }

/-- The identical literal in a different file. -/
def c6b : QCand :=
  { pattern := "^(a+)+$".toList, flags := "g".toList, file := "analysis/projects/p/b.js" }

/-- Analyser behaviour flagging the pattern vulnerable with infinite score. -/
def c6oracle : AnalysisOracle := fun _ _ => .res false true

/-- C6 as stated is false: the same (pattern, flags) pair extracted from two
different files produces two separate vulnerable entries, each carrying only
its own origin, instead of one entry with both origins. -/
theorem duplicate_pattern_two_entries :
    (quickMainAgg c6oracle [[c6a], [c6b]]).1 = [⟨c6a, true⟩, ⟨c6b, true⟩] ∧
    c6a.pattern = c6b.pattern ∧ c6a.flags = c6b.flags ∧ c6a.file ≠ c6b.file := by
  refine ⟨by decide, by decide, by decide, by decide⟩

/-! ## Literal recovery

Embeds `extractRegexFromFile` (src/tool-evaluation/evaluate-tools.js
200-262) and `quickExtract` (src/quick-analysis.js 13-35).  The three
scanning regexes of `regexPatterns` (lines 191-198) are hand-compiled to
scanners over `List Char`; each one has a deterministic repetition
structure, so greedy backtracking reduces to trying the longest repetition
first (`tryRemsLongest`). -/

/-- JS `.` outside dotall mode: any char except the four line terminators
U+000A, U+000D, U+2028, U+2029. -/
def jsDot (c : Char) : Bool :=
  !(c = '\n' || c = '\r' || c = '\u2028' || c = '\u2029')

/-- The regex-flag class `[gimsuvy]`. -/
def isFlagChar (c : Char) : Bool :=
  c = 'g' || c = 'i' || c = 'm' || c = 's' || c = 'u' || c = 'v' || c = 'y'

/-- Remainders reachable by the body `([^\/\n\r\\]|\\[^*]|\\.)*` of
`regexPatterns[0]`, after 0, 1, 2, … repetitions in order.  A backslash can
only start an escape unit (`\\[^*]` accepts any non-star second char,
including line terminators; `\\.` accepts the star), so it consumes two
chars; a char other than `/`, newline, carriage return, backslash consumes
itself; the repetition can proceed no further otherwise.  Each position is
reachable by exactly one unit decomposition. -/
def litBodyRems : List Char → List (List Char)
  | [] => [[]]
  | c :: rest =>
      if c = '\\' then
        match rest with
        | [] => [c :: rest]
        | _ :: rest2 => (c :: rest) :: litBodyRems rest2
      else if c = '/' || c = '\n' || c = '\r' then [c :: rest]
      else (c :: rest) :: litBodyRems rest

/-- Greedy star: try the continuation `k` at the longest reachable
remainder first (the last element of a `…Rems` chain), backtracking to
shorter ones — exactly the engine's backtracking order for `X*Y` when the
reachable positions form a single chain. -/
def tryRemsLongest (k : List Char → Option (List Char)) :
    List (List Char) → Option (List Char)
  | [] => none
  | r :: rs =>
      match tryRemsLongest k rs with
      | some v => some v
      | none => k r

/-- One attempt of `regexPatterns[0]`
(`\/(?![*\/])([^\/\n\r\\]|\\[^*]|\\.)*\/[gimsuvy]*`) at the current
position: an opening `/` not followed by `*` or `/` (negative lookahead,
which also succeeds at end of input), the greedy body, a closing `/`, then
greedily the flag letters.  Returns the remainder after the match. -/
def matchLiteralAt : List Char → Option (List Char)
  | '/' :: rest =>
      match rest with
      | '*' :: _ => none
      | '/' :: _ => none
      | _ =>
          tryRemsLongest
            (fun r =>
              match r with
              | '/' :: t => some (t.dropWhile isFlagChar)
              | _ => none)
            (litBodyRems rest)
  | _ => none

/-- `content.match(re)` for a global regex: the engine looks for the
leftmost match from the current position, records the matched substring and
continues at the match end (advancing one char on a zero-width match, which
none of the embedded scanners can produce: their matches are at least three
chars).  Fuel bounds the recursion by the text length; every step consumes
at least one char. -/
def scanWithAux (matchAt : List Char → Option (List Char)) :
    Nat → List Char → List (List Char)
  | 0, _ => []
  | _, [] => []
  | Nat.succ fuel, l =>
      match matchAt l with
      | some rest =>
          let n := l.length - rest.length
          if n = 0 then
            match l with
            | [] => []
            | _ :: t => scanWithAux matchAt fuel t
          else (l.take n) :: scanWithAux matchAt fuel rest
      | none =>
          match l with
          | [] => []
          | _ :: t => scanWithAux matchAt fuel t

/-- All matches of a global scanning regex over the content. -/
def scanWith (matchAt : List Char → Option (List Char)) (content : List Char) :
    List (List Char) :=
  scanWithAux matchAt (content.length + 1) content

/-- Split a reversed character list at its first `/`:
returns (chars before the slash, chars after). -/
def breakAtSlashRev : List Char → Option (List Char × List Char)
  | [] => none
  | '/' :: t => some ([], t)
  | c :: t =>
      match breakAtSlashRev t with
      | none => none
      | some ab => some (c :: ab.1, ab.2)

/-- The per-match reparse `match.match(/^\/(.*)\/([gimsuvy]*)$/)` (line 210
resp. quick-analysis line 21).  `(.*)` is greedy and cannot cross a line
terminator, and `[gimsuvy]*` cannot contain `/`, so the only viable split is
at the *last* slash: everything after it must be flag letters and everything
between the outer slashes must be `.`-matchable, else the anchored match
fails and the occurrence is skipped. -/
def parseLiteral (m : List Char) : Option (List Char × List Char) :=
  match m with
  | '/' :: rest =>
      match breakAtSlashRev rest.reverse with
      | none => none
      | some fp =>
          let pattern := fp.2.reverse
          let flags := fp.1.reverse
          if pattern.all jsDot && flags.all isFlagChar then some (pattern, flags)
          else none
  | _ => none

/-- JS `\s`: space, tab, line terminators, vertical tab, form feed, NBSP,
Unicode space separators, BOM. -/
def isJsWs (c : Char) : Bool :=
  c = ' ' || c = '\t' || c = '\n' || c = '\x0b' || c = '\x0c' || c = '\r'
    || c = '\u00a0' || c = '\u1680' || ('\u2000' ≤ c && c ≤ '\u200a')
    || c = '\u2028' || c = '\u2029' || c = '\u202f' || c = '\u205f'
    || c = '\u3000' || c = '\ufeff'

/-- Match a fixed token; return the remainder. -/
def expectSeq : List Char → List Char → Option (List Char)
  | [], l => some l
  | _ :: _, [] => none
  | e :: es, c :: cs => if c = e then expectSeq es cs else none

/-- Remainders of the quoted-string body `((?:[^'"\\\n\r]|\\.)*)` of
`regexPatterns[1]`: a backslash consumes itself plus any
non-line-terminator (`\\.`); a char other than either quote kind,
backslash, newline, carriage return consumes itself; the chain stops
otherwise.  Again each position has exactly one unit decomposition. -/
def strBodyRems : List Char → List (List Char)
  | [] => [[]]
  | c :: rest =>
      if c = '\\' then
        match rest with
        | [] => [c :: rest]
        | d :: rest2 =>
            if jsDot d then (c :: rest) :: strBodyRems rest2
            else [c :: rest]
      else if c = '\'' || c = '"' || c = '\n' || c = '\r' then [c :: rest]
      else (c :: rest) :: strBodyRems rest

/-- The trailing `\s*\)` of both constructor patterns. -/
def ctorClose (r : List Char) : Option (List Char) :=
  match r.dropWhile isJsWs with
  | ')' :: t => some t
  | _ => none

/-- The optional flags group `(?:\s*,\s*['"][gimsuvy]*['"])?` of both
constructor patterns: `[gimsuvy]*` is greedy and flag letters are never
quotes, so the maximal flag run followed by a quote is the only option. -/
def ctorFlagsGroup (r : List Char) : Option (List Char) :=
  match r.dropWhile isJsWs with
  | ',' :: t =>
      match t.dropWhile isJsWs with
      | q :: t2 =>
          if q = '\'' || q = '"' then
            match t2.dropWhile isFlagChar with
            | q2 :: t4 => if q2 = '\'' || q2 = '"' then some t4 else none
            | [] => none
          else none
      | [] => none
  | _ => none

/-- One attempt of `regexPatterns[1]`
(`new\s+RegExp\s*\(\s*['"]((?:[^'"\\\n\r]|\\.)*)['"](?:\s*,\s*['"][gimsuvy]*['"])?\s*\)`)
at the current position.  `\s+` must eat at least one char; the token after
each whitespace run starts with a non-whitespace char, so maximal whitespace
runs are the only option.  The optional group is greedy: it is attempted
first and dropped if the trailing `\s*\)` then fails. -/
def matchCtorAt (l : List Char) : Option (List Char) :=
  match expectSeq "new".toList l with
  | none => none
  | some r1 =>
      if (r1.takeWhile isJsWs).isEmpty then none
      else
        match expectSeq "RegExp".toList (r1.dropWhile isJsWs) with
        | none => none
        | some r2 =>
            match r2.dropWhile isJsWs with
            | '(' :: r4 =>
                match r4.dropWhile isJsWs with
                | q :: r6 =>
                    if q = '\'' || q = '"' then
                      tryRemsLongest
                        (fun r =>
                          match r with
                          | q2 :: r7 =>
                              if q2 = '\'' || q2 = '"' then
                                match ctorFlagsGroup r7 with
                                | some r8 =>
                                    match ctorClose r8 with
                                    | some r9 => some r9
                                    | none => ctorClose r7
                                | none => ctorClose r7
                              else none
                          | [] => none)
                        (strBodyRems r6)
                    else none
                | [] => none
            | _ => none
/-- The identifier-start class `[a-zA-Z_$]`. -/
def isIdentStart (c : Char) : Bool :=
  ('a' ≤ c && c ≤ 'z') || ('A' ≤ c && c ≤ 'Z') || c = '_' || c = '$'

/-- The identifier-continuation class `[a-zA-Z0-9_$]`. -/
def isIdentChar (c : Char) : Bool :=
  isIdentStart c || ('0' ≤ c && c ≤ '9')

/-- One attempt of `regexPatterns[2]`
(`new\s+RegExp\s*\(\s*[a-zA-Z_$][a-zA-Z0-9_$]*(?:\s*,\s*['"][gimsuvy]*['"])?\s*\)`),
the identifier-argument constructor form.  The identifier run is greedy and
none of its continuation chars can follow an identifier inside this pattern,
so the maximal run is the only option. -/
def matchVarCtorAt (l : List Char) : Option (List Char) :=
  match expectSeq "new".toList l with
  | none => none
  | some r1 =>
      if (r1.takeWhile isJsWs).isEmpty then none
      else
        match expectSeq "RegExp".toList (r1.dropWhile isJsWs) with
        | none => none
        | some r2 =>
            match r2.dropWhile isJsWs with
            | '(' :: r4 =>
                match r4.dropWhile isJsWs with
                | c :: r5 =>
                    if isIdentStart c then
                      let r6 := r5.dropWhile isIdentChar
                      match ctorFlagsGroup r6 with
                      | some r7 =>
                          match ctorClose r7 with
                          | some r8 => some r8
                          | none => ctorClose r6
                      | none => ctorClose r6
                    else none
                | [] => none
            | _ => none

/-- `content.match(regexPatterns[0])` (line 206 / quick-analysis line 19;
the two sources use a character-identical literal-scanning regex). -/
def scanLiterals (content : List Char) : List (List Char) :=
  scanWith matchLiteralAt content

/-- `content.match(regexPatterns[1])` (line 233). -/
def scanCtors (content : List Char) : List (List Char) :=
  scanWith matchCtorAt content

/-- What `content.match(regexPatterns[2])` would return.  `regexPatterns[2]`
is declared (line 197) but never consulted by `extractRegexFromFile`. -/
def scanVarCtors (content : List Char) : List (List Char) :=
  scanWith matchVarCtorAt content

/-- The per-match reparse
`match.match(/new\s+RegExp\s*\(\s*['"]([^'"]*)['"]/)` (line 236).  The
capture `[^'"]*` stops at the first quote of either kind with no escape
handling.  The regex is unanchored, but every input handed to it by the
code starts with `new`, where the prefix obligations coincide with the
scanner's, so the leftmost match starts at position 0. -/
def reparseCtor (m : List Char) : Option (List Char) :=
  match expectSeq "new".toList m with
  | none => none
  | some r1 =>
      if (r1.takeWhile isJsWs).isEmpty then none
      else
        match expectSeq "RegExp".toList (r1.dropWhile isJsWs) with
        | none => none
        | some r2 =>
            match r2.dropWhile isJsWs with
            | '(' :: r4 =>
                match r4.dropWhile isJsWs with
                | q :: r6 =>
                    if q = '\'' || q = '"' then
                      let cap := r6.takeWhile fun c => !(c = '\'' || c = '"')
                      match r6.drop cap.length with
                      | q2 :: _ => if q2 = '\'' || q2 = '"' then some cap else none
                      | [] => none
                    else none
                | [] => none
            | _ => none

/-- The inclusion condition of lines 216-217 — `pattern.length > 5 &&
pattern.length < 500 && !pattern.includes('\\n') && !pattern.includes('\\r')`
(the `includes` arguments are the two-character sequences backslash-n and
backslash-r) — repeated verbatim for constructor candidates at 241-242. -/
def keepE (pattern : List Char) : Bool :=
  decide (pattern.length > 5) && decide (pattern.length < 500)
    && !(jsIncludes pattern "\\n".toList) && !(jsIncludes pattern "\\r".toList)

/-- The `literalMatches.forEach` body (lines 207-230): reparse one match
and build the candidate when the inclusion condition holds. -/
def litCandOf (file : String) (m : List Char) : Option ECand :=
  match parseLiteral m with
  | some pf =>
      if keepE pf.1 then
        some { kind := .lit, pattern := pf.1, flags := pf.2, full := m, file := file }
      else none
  | none => none

/-- The `constructorMatches.forEach` body (lines 234-255): constructor
candidates get `flags: ''`. -/
def ctorCandOf (file : String) (m : List Char) : Option ECand :=
  match reparseCtor m with
  | some pattern =>
      if keepE pattern then
        some { kind := .ctor, pattern := pattern, flags := [], full := m, file := file }
      else none
  | none => none

/-- `extractRegexFromFile(filePath)` (lines 200-262): literal candidates
first, then constructor candidates; `regexPatterns[2]` is never used. -/
def extractRegexFromFile (file : String) (content : List Char) : List ECand :=
  (scanLiterals content).filterMap (litCandOf file)
    ++ (scanCtors content).filterMap (ctorCandOf file)

/-- The `literalMatches.forEach` body of `quickExtract` (lines 20-29):
only the minimum-length filter `patternMatch[1].length > 5`. -/
def qCandOf (file : String) (m : List Char) : Option QCand :=
  match parseLiteral m with
  | some pf =>
      if decide (pf.1.length > 5) then
        some { pattern := pf.1, flags := pf.2, file := file }
      else none
  | none => none

/-- `quickExtract(filePath)` (src/quick-analysis.js 13-35): literal scan
only — no constructor scan, no maximum length, no escape-sequence filter. -/
def quickExtract (file : String) (content : List Char) : List QCand :=
  (scanLiterals content).filterMap (qCandOf file)

theorem keep_of_litCandOf {file : String} {m : List Char} {c : ECand}
    (h : litCandOf file m = some c) : keepE c.pattern = true := by
  rw [litCandOf] at h
  split at h
  · split at h
    · cases h
      assumption
    · cases h
  · cases h

theorem keep_of_ctorCandOf {file : String} {m : List Char} {c : ECand}
    (h : ctorCandOf file m = some c) : keepE c.pattern = true := by
  rw [ctorCandOf] at h
  split at h
  · split at h
    · cases h
      assumption
    · cases h
  · cases h

theorem extract_mem_keep (file : String) (content : List Char) (c : ECand)
    (h : c ∈ extractRegexFromFile file content) : keepE c.pattern = true := by
  rw [extractRegexFromFile] at h
  rcases List.mem_append.mp h with h' | h' <;>
    rcases List.mem_filterMap.mp h' with ⟨m, -, hsome⟩
  · exact keep_of_litCandOf hsome
  · exact keep_of_ctorCandOf hsome

theorem minlen_of_qCandOf {file : String} {m : List Char} {q : QCand}
    (h : qCandOf file m = some q) : 5 < q.pattern.length := by
  rw [qCandOf] at h
  split at h
  · split at h
    · cases h
      simpa using ‹decide (_ > 5) = true›
    · cases h
  · cases h

/-- Source text containing a constructor call whose first argument is the
identifier `userPattern`, not a quoted string. -/
def c7content : List Char := "const re = new RegExp(userPattern);".toList

/-- C7 as stated is false: the identifier-argument constructor occurrence is
matched by the declared scanning pattern `regexPatterns[2]`, yet neither
extractor records any candidate for it — there is no
`kind = constructed, rawPattern = null` entry, just nothing. -/
theorem variable_ctor_no_candidate :
    extractRegexFromFile "f.js" c7content = [] ∧
    quickExtract "f.js" c7content = [] ∧
    scanVarCtors c7content = ["new RegExp(userPattern)".toList] := by
  refine ⟨by decide, by decide, by decide⟩

/-- A second identifier-argument call, with a flags argument. -/
def c7content2 : List Char := "var r = new RegExp(dynamicSrc, \"gi\");".toList

/-- C7 amended: `extractRegexFromFile` consults only the literal pattern
and the quoted-string constructor pattern, so identifier-argument
constructor calls — though matched by the declared-but-unused
`regexPatterns[2]` — produce no candidate at all and therefore never reach
any verdict. -/
theorem variable_ctor_unused_scanner :
    scanVarCtors c7content2 = ["new RegExp(dynamicSrc, \"gi\")".toList] ∧
    scanLiterals c7content2 = [] ∧
    scanCtors c7content2 = [] ∧
    extractRegexFromFile "g.js" c7content2 = [] ∧
    quickExtract "g.js" c7content2 = [] := by
  refine ⟨by decide, by decide, by decide, by decide, by decide⟩

/-- A slash-delimited literal whose pattern is `n` repetitions of `a`. -/
def litOf (n : Nat) : List Char := '/' :: (List.replicate n 'a' ++ ['/'])

/-- C8 as stated is false at both boundaries: `extractRegexFromFile` drops
a pattern of length exactly 500 (the condition is `< 500`, not `≤ 500`),
while `quickExtract` retains a pattern of length 501 (it has no maximum at
all). -/
theorem length_filter_boundary_500 :
    extractRegexFromFile "f.js" (litOf 500) = [] ∧
    (extractRegexFromFile "f.js" (litOf 499)).length = 1 ∧
    (quickExtract "f.js" (litOf 501)).length = 1 := by
  refine ⟨by decide, by decide, by decide⟩

/-- C8 amended: every candidate kept by `extractRegexFromFile` has pattern
length strictly between 5 and 500 (6 … 499), with both boundaries as the
code draws them (6 kept, 5 dropped, 499 kept, 500 dropped); `quickExtract`
enforces only the minimum — length at least 6 with no upper bound. -/
theorem extraction_length_filter :
    (∀ (file : String) (content : List Char),
        ((extractRegexFromFile file content).all fun c =>
            decide (5 < c.pattern.length) && decide (c.pattern.length < 500)) = true) ∧
    (∀ (file : String) (content : List Char),
        ((quickExtract file content).all fun q => decide (5 < q.pattern.length)) = true) ∧
    extractRegexFromFile "f.js" (litOf 5) = [] ∧
    (extractRegexFromFile "f.js" (litOf 6)).length = 1 ∧
    quickExtract "f.js" (litOf 5) = [] ∧
    (quickExtract "f.js" (litOf 6)).length = 1 := by
  refine ⟨?_, ?_, by decide, by decide, by decide, by decide⟩
  · intro file content
    rw [List.all_eq_true]
    intro c hc
    have hk := extract_mem_keep file content c hc
    rw [keepE] at hk
    rw [Bool.and_eq_true]
    have h1 := Bool.and_eq_true _ _ ▸ hk
    have h2 := Bool.and_eq_true _ _ ▸ h1.1
    have h3 := Bool.and_eq_true _ _ ▸ h2.1
    exact ⟨h3.1, h3.2⟩
  · intro file content
    rw [List.all_eq_true]
    intro q hq
    rcases List.mem_filterMap.mp hq with ⟨m, -, hsome⟩
    exact decide_eq_true (minlen_of_qCandOf hsome)

/-- A literal whose pattern contains the two-character escape `\n` and
passes both length bounds, and a constructor call whose pattern contains
the escape `\r` likewise. -/
def c10lit : List Char := "/abc\\ndef/".toList

/-- C10 (implicit behaviour, confirmed): `extractRegexFromFile` silently
drops every candidate whose pattern text contains the two-character
sequences backslash-n or backslash-r, even when the length filters are
satisfied; the concrete literal (pattern length 8) and constructor call
(pattern length 6) below are matched and reparsed successfully yet appear
in no output, while `quickExtract` — which lacks the escape filter — keeps
the same literal. -/
theorem escape_sequences_excluded :
    (∀ (file : String) (content : List Char),
        ((extractRegexFromFile file content).all fun c =>
            !(jsIncludes c.pattern "\\n".toList) && !(jsIncludes c.pattern "\\r".toList))
          = true) ∧
    parseLiteral c10lit = some ("abc\\ndef".toList, []) ∧
    (5 < "abc\\ndef".toList.length ∧ "abc\\ndef".toList.length < 500) ∧
    extractRegexFromFile "f.js" c10lit = [] ∧
    quickExtract "f.js" c10lit
      = [{ pattern := "abc\\ndef".toList, flags := [], file := "f.js" }] ∧
    extractRegexFromFile "g.js" "new RegExp(\"ab\\rcd\")".toList = [] := by
  refine ⟨?_, by decide, by decide, by decide, by decide, by decide⟩
  intro file content
  rw [List.all_eq_true]
  intro c hc
  have hk := extract_mem_keep file content c hc
  rw [keepE] at hk
  rw [Bool.and_eq_true]
  exact ⟨(Bool.and_eq_true _ _ ▸ (Bool.and_eq_true _ _ ▸ hk).1).2,
    (Bool.and_eq_true _ _ ▸ hk).2⟩

end ReDoS
